import Mathlib

/-
  Verification of the task-dispatch and result-aggregation engine of
  LovelyVol2Pro (volpro.py): a shallow embedding of the Python source in
  Lean 4, with theorems about the Completion Oracle, the task dispatcher,
  the progress notifications, the report assembler and the configuration
  parser.

  Python strings are lists of characters, bytes are lists of naturals,
  the filesystem is a map from paths to file entries, and the external
  analysis tool is an oracle giving the process result of each task.
-/

set_option maxRecDepth 8000

namespace VolPro

/-- Python strings are modelled as lists of characters. -/
abbrev Str := List Char

/-- Coerce a Lean string literal into the string type of the model. -/
def str (s : String) : Str := s.data

/-- Python `s.split(sep)` for a one-character separator: split at every
occurrence of `sep`, keeping empty fields, so `n` separators yield
`n + 1` fields and `"".split(sep) = [""]`. -/
def pySplit (sep : Char) : Str → List Str
  | [] => [[]]
  | c :: cs =>
    if c = sep then [] :: pySplit sep cs
    else
      match pySplit sep cs with
      | [] => [[c]]
      | p :: ps => (c :: p) :: ps

/-- Python `needle in hay` for strings: substring containment. -/
def containsSub (needle hay : Str) : Bool :=
  hay.tails.any (fun t => needle.isPrefixOf t)

/-- An ASCII whitespace character, as stripped by Python `str.strip()`. -/
def isPyWS (c : Char) : Bool :=
  c = ' ' || c = '\t' || c = '\n' || c = '\r' || c = Char.ofNat 11 || c = Char.ofNat 12

/-- Python `str.strip()`: drop leading and trailing whitespace. -/
def pyStrip (l : Str) : Str :=
  ((l.dropWhile isPyWS).reverse.dropWhile isPyWS).reverse

/-- Python `list.index` as used through `findIdx?`: the first index of `x`,
or `none` where Python raises `ValueError`. -/
def pyIndex (l : List Str) (x : Str) : Option Nat :=
  l.findIdx? (fun y => y == x)

/-- A UTF-8 continuation byte (`0x80..0xBF`). -/
def isCont (b : Nat) : Bool := 0x80 ≤ b && b ≤ 0xBF

/-- Valid first continuation byte of a three-byte sequence led by `b`
(excluding overlong encodings and surrogates, as CPython does). -/
def cont1Ok3 (b b1 : Nat) : Bool :=
  if b = 0xE0 then 0xA0 ≤ b1 && b1 ≤ 0xBF
  else if b = 0xED then 0x80 ≤ b1 && b1 ≤ 0x9F
  else isCont b1

/-- Valid first continuation byte of a four-byte sequence led by `b`
(excluding overlong encodings and code points above `0x10FFFF`). -/
def cont1Ok4 (b b1 : Nat) : Bool :=
  if b = 0xF0 then 0x90 ≤ b1 && b1 ≤ 0xBF
  else if b = 0xF4 then 0x80 ≤ b1 && b1 ≤ 0x8F
  else isCont b1

/-- One step of the UTF-8 decoder with the `ignore` error handler: given a
lead byte `b` and the remaining bytes, return the decoded character (or
`none` when the sequence starting at `b` is ill-formed or truncated) and
how many further bytes are consumed. On an ill-formed sequence the maximal
valid subpart is consumed and dropped, as CPython does. -/
def utf8Step (b : Nat) (rest : List Nat) : Option Char × Nat :=
  if b < 0x80 then (some (Char.ofNat b), 0)
  else if 0xC2 ≤ b && b ≤ 0xDF then
    match rest with
    | [] => (none, 0)
    | b1 :: _ =>
      if isCont b1 then (some (Char.ofNat ((b - 0xC0) * 0x40 + (b1 - 0x80))), 1)
      else (none, 0)
  else if 0xE0 ≤ b && b ≤ 0xEF then
    match rest with
    | [] => (none, 0)
    | b1 :: rest1 =>
      if cont1Ok3 b b1 then
        match rest1 with
        | [] => (none, 1)
        | b2 :: _ =>
          if isCont b2 then
            (some (Char.ofNat ((b - 0xE0) * 0x1000 + (b1 - 0x80) * 0x40 + (b2 - 0x80))), 2)
          else (none, 1)
      else (none, 0)
  else if 0xF0 ≤ b && b ≤ 0xF4 then
    match rest with
    | [] => (none, 0)
    | b1 :: rest1 =>
      if cont1Ok4 b b1 then
        match rest1 with
        | [] => (none, 1)
        | b2 :: rest2 =>
          if isCont b2 then
            match rest2 with
            | [] => (none, 2)
            | b3 :: _ =>
              if isCont b3 then
                (some (Char.ofNat ((b - 0xF0) * 0x40000 + (b1 - 0x80) * 0x1000 +
                  (b2 - 0x80) * 0x40 + (b3 - 0x80))), 3)
              else (none, 2)
          else (none, 1)
      else (none, 0)
  else (none, 0)

/-- The decoding loop, structurally recursive on a step bound: every step
consumes at least the lead byte, so `l.length` steps always suffice. -/
def decodeUtf8Go : Nat → List Nat → Str
  | 0, _ => []
  | _ + 1, [] => []
  | fuel + 1, b :: rest =>
    match utf8Step b rest with
    | (some c, k) => c :: decodeUtf8Go fuel (rest.drop k)
    | (none, k) => decodeUtf8Go fuel (rest.drop k)

/-- Python `bytes.decode("UTF-8", errors="ignore")`: decode UTF-8,
silently dropping ill-formed subsequences. Total: decoding never
raises. -/
def decodeUtf8Ignore (l : List Nat) : Str := decodeUtf8Go l.length l

/-- A byte sequence is well-formed UTF-8. -/
def validUtf8 : List Nat → Bool
  | [] => true
  | b :: rest =>
    if b < 0x80 then validUtf8 rest
    else if 0xC2 ≤ b && b ≤ 0xDF then
      match rest with
      | [] => false
      | b1 :: rest1 => isCont b1 && validUtf8 rest1
    else if 0xE0 ≤ b && b ≤ 0xEF then
      match rest with
      | [] => false
      | b1 :: rest1 =>
        match rest1 with
        | [] => false
        | b2 :: rest2 => cont1Ok3 b b1 && isCont b2 && validUtf8 rest2
    else if 0xF0 ≤ b && b ≤ 0xF4 then
      match rest with
      | [] => false
      | b1 :: rest1 =>
        match rest1 with
        | [] => false
        | b2 :: rest2 =>
          match rest2 with
          | [] => false
          | b3 :: rest3 => cont1Ok4 b b1 && isCont b2 && isCont b3 && validUtf8 rest3
    else false

/-- A file on disk: its text when a read succeeds, or a file whose read
raises (e.g. bytes that are not valid UTF-8 for `Path.read_text`). -/
inductive FileEntry where
  | readable (content : Str)
  | unreadable
deriving DecidableEq

/-- The filesystem: a map from paths to file entries. -/
def FS := Str → Option FileEntry

/-- The empty filesystem. -/
def emptyFS : FS := fun _ => none

/-- Python `Path.exists()`. -/
def fileExists (fs : FS) (p : Str) : Bool := (fs p).isSome

/-- Python `Path.read_text()`: `none` models a raised exception. -/
def readText (fs : FS) (p : Str) : Option Str :=
  match fs p with
  | some (FileEntry.readable c) => some c
  | _ => none

/-- Python `Path.write_text(content)`. -/
def writeFS (fs : FS) (p : Str) (content : Str) : FS :=
  fun q => if q = p then some (FileEntry.readable content) else fs q

/-- POSIX `os.path.dirname`: everything before the final slash, with
trailing slashes stripped unless the result is all slashes. -/
def dirname (p : Str) : Str :=
  match p.reverse.findIdx? (fun c => c == '/') with
  | none => []
  | some j =>
    let head := p.take (p.length - j)
    if head ≠ [] && head.any (fun c => c ≠ '/') then
      (head.reverse.dropWhile (fun c => c == '/')).reverse
    else head

/-- The `/` operator of `pathlib` on POSIX paths. -/
def pathJoin (d f : Str) : Str :=
  if d = [] then f
  else if d.getLast? = some '/' then d ++ f
  else d ++ '/' :: f

/-- The per-task output file path, `output_path` joined with the task name plus a `.txt` suffix. -/
def taskPath (output_path task_name : Str) : Str :=
  pathJoin output_path (task_name ++ str ".txt")

/-- The result of one `subprocess.run` invocation of the external tool:
a normal exit with captured standard-output bytes, a timeout
(`subprocess.TimeoutExpired`), or any other raised exception. -/
inductive ProcResult where
  | ok (stdout : List Nat)
  | timedOut
  | failed
deriving DecidableEq

/-- The terminal classification of one task execution. -/
inductive Outcome where
  | success
  | emptyOutput
  | timeout
  | execError
deriving DecidableEq

/-- What one call of `VolatilityAnalyzer.run_command` produces: the updated
filesystem, the outcome of the task, and the single label passed to
`ProgressManager.update`. -/
structure RunOut where
  fs : FS
  outcome : Outcome
  label : Str

/-- Embeds `VolatilityAnalyzer.run_command` (volpro.py lines 55-87): run the
external process, decode its standard output with the ignore error
handler, persist non-empty output to `output_path/<task_name>.txt`, and
notify the progress manager exactly once with an outcome-marked label.
All exceptions are caught inside, so the caller never sees a failure. -/
def run_command (pr : ProcResult) (task_name output_path : Str) (fs : FS) : RunOut :=
  match pr with
  | ProcResult.ok stdoutBytes =>
    let output := decodeUtf8Ignore stdoutBytes
    if output ≠ [] then
      { fs := writeFS fs (taskPath output_path task_name) output
        outcome := Outcome.success
        label := task_name }
    else
      { fs := fs, outcome := Outcome.emptyOutput, label := task_name ++ str " (无输出)" }
  | ProcResult.timedOut =>
      { fs := fs, outcome := Outcome.timeout, label := task_name ++ str " (超时)" }
  | ProcResult.failed =>
      { fs := fs, outcome := Outcome.execError, label := task_name ++ str " (错误)" }

/-- The worker pool of `analyze_memory_dump` (volpro.py lines 214-224):
every task in the dict is submitted and awaited. Tasks write to distinct
files and the progress counter is the only shared state, so the pool is
modelled by a sequential linearization threading the filesystem and
collecting the progress labels in submission order. -/
def dispatch (behavior : Str → ProcResult) (output_path : Str) :
    List Str → FS → FS × List Str
  | [], fs => (fs, [])
  | n :: rest, fs =>
    let r := run_command (behavior n) n output_path fs
    let out := dispatch behavior output_path rest r.fs
    (out.1, r.label :: out.2)

/-- Embeds `VolatilityAnalyzer.get_remaining_tasks` (volpro.py lines 51-53). -/
def get_remaining_tasks (fs : FS) (output_path : Str) (tasks : List (Str × List Str)) :
    List Str :=
  (tasks.map Prod.fst).filter (fun task_name => !fileExists fs (taskPath output_path task_name))

/-- Help-text resolution for a filter task in `generate_markdown`
(volpro.py lines 102-105): `task_name.split('(')[1].split(')')[0]` then
`task_filescanlist.index` then the help list. `none` models a raised
`IndexError`/`ValueError`. -/
def filterHelp (task_name : Str) (task_filescanlist task_filescanlist_help : List Str) :
    Option Str :=
  match (pySplit '(' task_name).get? 1 with
  | none => none
  | some seg =>
    let scan_type := (pySplit ')' seg).headD []
    match pyIndex task_filescanlist scan_type with
    | none => none
    | some index => task_filescanlist_help.get? index

/-- Help-text resolution in `generate_markdown` (volpro.py lines 102-108):
filter-style lookup when `"filescan" in task_name`, else
`tasklist.index(task_name)` into `tasklist_help`. -/
def helpLookup (task_name : Str)
    (tasklist tasklist_help task_filescanlist task_filescanlist_help : List Str) :
    Option Str :=
  if containsSub (str "filescan") task_name then
    filterHelp task_name task_filescanlist task_filescanlist_help
  else
    match pyIndex tasklist task_name with
    | none => none
    | some index => tasklist_help.get? index

/-- The chunks one loop iteration of `generate_markdown` appends for one
task (volpro.py lines 100-120). A failed help lookup raises before any
append, so it contributes nothing; a failed file read raises after the
heading was appended, so only the heading survives; otherwise the heading
is followed by the fenced file text or the no-data placeholder. -/
def sectionChunks (fs : FS) (output_path task_name : Str)
    (tasklist tasklist_help task_filescanlist task_filescanlist_help : List Str) :
    List Str :=
  match helpLookup task_name tasklist tasklist_help task_filescanlist task_filescanlist_help with
  | none => []
  | some help_text =>
    let heading := str "# " ++ task_name ++ str "\n## " ++ help_text
    let task_file := taskPath output_path task_name
    if fileExists fs task_file then
      match readText fs task_file with
      | some content => [heading, str "```\n" ++ content ++ str "\n```\n"]
      | none => [heading]
    else
      [heading, str "*暂无数据*\n"]

/-- The `for task_name in tasks.keys()` loop of `generate_markdown`,
threading the accumulated `markdown` list. -/
def markdownLoop (fs : FS) (output_path : Str)
    (tasklist tasklist_help task_filescanlist task_filescanlist_help : List Str) :
    List Str → List Str → List Str
  | acc, [] => acc
  | acc, task_name :: rest =>
    markdownLoop fs output_path tasklist tasklist_help task_filescanlist task_filescanlist_help
      (acc ++ sectionChunks fs output_path task_name
        tasklist tasklist_help task_filescanlist task_filescanlist_help) rest

/-- Python `'\n'.join`. -/
def joinLines : List Str → Str
  | [] => []
  | [x] => x
  | x :: xs => x ++ '\n' :: joinLines xs

/-- Embeds `VolatilityAnalyzer.generate_markdown` (volpro.py lines 89-127):
assemble the per-task sections in dict-key order and write the result to
`output_path/summary.md`. Returns the filesystem after the write and the
assembled chunk list. Per-task exceptions are caught inside the loop. -/
def generate_markdown (fs : FS) (output_path : Str) (tasks : List (Str × List Str))
    (tasklist tasklist_help task_filescanlist task_filescanlist_help : List Str) :
    FS × List Str :=
  let markdown := markdownLoop fs output_path
    tasklist tasklist_help task_filescanlist task_filescanlist_help [] (tasks.map Prod.fst)
  (writeFS fs (pathJoin output_path (str "summary.md")) (joinLines markdown), markdown)

/-- Python `line.split('-')[0]`: the task name of a configuration line. -/
def parseName (line : Str) : Str := (pySplit '-' line).headD []

/-- Python `line.split('-')[1]`: the help text of a configuration line, or `none`
where Python raises `IndexError` (no separator in the line). -/
def parseHelp (line : Str) : Option Str := (pySplit '-' line).get? 1

/-- The help-text list comprehension over the configuration lines
(volpro.py line 188): `none` when some line has no separator, in which
case the whole comprehension raises and the run aborts. -/
def parseHelps : List Str → Option (List Str)
  | [] => some []
  | l :: ls =>
    match parseHelp l with
    | none => none
    | some h => (parseHelps ls).map (fun hs => h :: hs)

/-- Python dict assignment `d[k] = v`: replace the value in place when the
key is present (keeping its position), else append the pair. -/
def dictInsert (d : List (Str × List Str)) (k : Str) (v : List Str) :
    List (Str × List Str) :=
  if d.any (fun p => p.1 == k) then
    d.map (fun p => if p.1 == k then (k, v) else p)
  else d ++ [(k, v)]

/-- Repeated dict assignment, left to right. -/
def dictInsertAll (d : List (Str × List Str)) : List (Str × List Str) → List (Str × List Str)
  | [] => d
  | (k, v) :: rest => dictInsertAll (dictInsert d k v) rest

/-- The hard-coded filter terms (volpro.py line 194). -/
def task_filescanlist : List Str :=
  [str "Desktop", str "Downloads", str ".zip", str "flag", str "evtx"]

/-- The hard-coded filter help texts (volpro.py line 195). -/
def task_filescanlist_help : List Str :=
  [str "桌面", str "下载", str "压缩包", str "flag", str "日志"]

/-- Python string interpolation of an optional value: `None` prints as the
literal token `None`. -/
def profileStr : Option Str → Str
  | some p => p
  | none => str "None"

/-- The command arguments of a catalog task (volpro.py line 203). -/
def catalogArgs (profile : Option Str) (memorydump_path task : Str) : List Str :=
  [str "--profile=" ++ profileStr profile, str "-f", memorydump_path, task]

/-- The command arguments of a filter task (volpro.py lines 205-208). -/
def filterArgs (profile : Option Str) (memorydump_path term : Str) : List Str :=
  [str "--profile=" ++ profileStr profile, str "-f", memorydump_path,
   str "filescan", str "|", str "findstr", term]

/-- The name of a filter task: `f"filescan({term})"`. -/
def filterTaskName (term : Str) : Str := str "filescan(" ++ term ++ str ")"

/-- The `tasks` dict built by `analyze_memory_dump` (volpro.py lines
198-208): catalog tasks in configuration order, then one filter task per
filter term. -/
def buildTasks (profile : Option Str) (memorydump_path : Str) (tasklist : List Str) :
    List (Str × List Str) :=
  dictInsertAll
    (dictInsertAll []
      (tasklist.map (fun task => (task, catalogArgs profile memorydump_path task))))
    (task_filescanlist.map (fun term =>
      (filterTaskName term, filterArgs profile memorydump_path term)))

/-- Python truthiness of an optional string: `None` and `""` are falsy. -/
def truthy : Option Str → Bool
  | none => false
  | some s => !s.isEmpty

/-- The `imageinfo` invocation used for profile auto-detection: a decoded
output text, or a raised exception. -/
inductive ImageInfoResult where
  | ok (output : Str)
  | raised

/-- The first output line containing the marker phrase
`"Suggested Profile(s)"` (volpro.py lines 173-174). -/
def findMarkerLine (output : Str) : Option Str :=
  (pySplit '\n' output).find? (fun line => containsSub (str "Suggested Profile(s)") line)

/-- Python `line.split(":")[1].strip().split(",")[0].strip()` (volpro.py line
175); `none` models the `IndexError` raised when the line has no colon. -/
def extractProfileFromLine (line : Str) : Option Str :=
  match (pySplit ':' line).get? 1 with
  | none => none
  | some seg => some (pyStrip ((pySplit ',' (pyStrip seg)).headD []))

/-- What the profile auto-detection block leaves behind: either the run
returns early (a raised exception reached the `except` handler), or it
proceeds with the `profile` variable as updated. -/
inductive DetectStep where
  | aborted
  | proceed (profile : Option Str)
deriving DecidableEq

/-- The auto-detection block of `analyze_memory_dump` (volpro.py lines
161-181). When no marker line occurs in the output the loop simply ends
and the run proceeds with `profile` unchanged. -/
def detectProfile (prior : Option Str) (res : ImageInfoResult) : DetectStep :=
  match res with
  | ImageInfoResult.raised => DetectStep.aborted
  | ImageInfoResult.ok output =>
    match findMarkerLine output with
    | none => DetectStep.proceed prior
    | some line =>
      match extractProfileFromLine line with
      | none => DetectStep.aborted
      | some p => DetectStep.proceed (some p)

/-- The environment of one run: the CLI inputs and the behavior of every
external collaborator (filesystem, `imageinfo`, `tasklist.cfg`, and the
per-task external tool). -/
structure Env where
  memorydump_path : Str
  profile : Option Str
  dumpfiles : Bool
  dumpfiles_location : Option Str
  mkdir_raises : Bool
  imageinfo : ImageInfoResult
  config : Option (List Str)
  behavior : Str → ProcResult
  fs : FS

/-- How one call of `analyze_memory_dump` ends: the dump-files branch, an
early `return` from profile detection or configuration reading, or a
completed run carrying the task dict, the progress labels, the final
filesystem and the assembled markdown chunks. -/
inductive RunResult where
  | dumpMode (fs : FS)
  | abortProfile (fs : FS)
  | abortConfig (fs : FS)
  | completed (tasks : List (Str × List Str)) (notifications : List Str)
      (fs : FS) (markdown : List Str)

/-- Embeds `VolatilityAnalyzer.analyze_memory_dump` (volpro.py lines 129-241).
`Except.error ()` models the only uncaught exception of the function: a
failing `output_path.mkdir` (line 135), which sits outside every
`try` block. All tasks in the dict are submitted to the pool;
`get_remaining_tasks` is never consulted. -/
def analyze_memory_dump (env : Env) : Except Unit RunResult :=
  let output_path := pathJoin (dirname env.memorydump_path) (str "output")
  if env.mkdir_raises then Except.error ()
  else if env.dumpfiles && truthy env.profile && truthy env.dumpfiles_location then
    Except.ok (RunResult.dumpMode env.fs)
  else
    let step := if truthy env.profile then DetectStep.proceed env.profile
                else detectProfile env.profile env.imageinfo
    match step with
    | DetectStep.aborted => Except.ok (RunResult.abortProfile env.fs)
    | DetectStep.proceed profile =>
      match env.config with
      | none => Except.ok (RunResult.abortConfig env.fs)
      | some config_lines =>
        match parseHelps config_lines with
        | none => Except.ok (RunResult.abortConfig env.fs)
        | some tasklist_help =>
          let tasklist := config_lines.map parseName
          let tasks := buildTasks profile env.memorydump_path tasklist
          let run := dispatch env.behavior output_path (tasks.map Prod.fst) env.fs
          let report := generate_markdown run.1 output_path tasks
            tasklist tasklist_help task_filescanlist task_filescanlist_help
          Except.ok (RunResult.completed tasks run.2 report.1 report.2)

/-- The process exit status produced by `main` (volpro.py lines 257-268):
`sys.exit(1)` only when an exception escapes `analyze_memory_dump`. -/
def mainExitCode (env : Env) : Nat :=
  match analyze_memory_dump env with
  | Except.ok _ => 0
  | Except.error _ => 1

/-- The task dict of a completed run (empty for every other ending). -/
def tasksOf : Except Unit RunResult → List (Str × List Str)
  | Except.ok (RunResult.completed tasks _ _ _) => tasks
  | _ => []

/-- Whether a run ended by the early `return` of the configuration
`except` handler. -/
def isAbortConfig : Except Unit RunResult → Bool
  | Except.ok (RunResult.abortConfig _) => true
  | _ => false

/-- Whether a run ended by the early `return` of the profile-detection
`except` handler. -/
def isAbortProfile : Except Unit RunResult → Bool
  | Except.ok (RunResult.abortProfile _) => true
  | _ => false

/-! ### Helper lemmas -/

lemma pySplit_of_not_mem {sep : Char} {l : Str} (h : sep ∉ l) : pySplit sep l = [l] := by
  induction l with
  | nil => rfl
  | cons c cs ih =>
    rw [List.mem_cons, not_or] at h
    rw [pySplit, if_neg (fun he => h.1 he.symm), ih h.2]

lemma pySplit_append {sep : Char} {a : Str} (r : Str) (h : sep ∉ a) :
    pySplit sep (a ++ sep :: r) = a :: pySplit sep r := by
  induction a with
  | nil => simp [pySplit]
  | cons c cs ih =>
    rw [List.mem_cons, not_or] at h
    rw [List.cons_append, pySplit, if_neg (fun he => h.1 he.symm), ih h.2]

lemma markdownLoop_eq (fs : FS) (output_path : Str) (tl th fl fh : List Str)
    (acc names : List Str) :
    markdownLoop fs output_path tl th fl fh acc names =
      acc ++ (names.map (fun n => sectionChunks fs output_path n tl th fl fh)).flatten := by
  induction names generalizing acc with
  | nil => simp [markdownLoop]
  | cons n rest ih => simp [markdownLoop, ih, List.append_assoc]

lemma pyIndex_getElem_of_nodup {tl : List Str} (h : tl.Nodup) {i : Nat}
    (hi : i < tl.length) : pyIndex tl tl[i] = some i := by
  induction tl generalizing i with
  | nil => simp at hi
  | cons a rest ih =>
    cases i with
    | zero => simp [pyIndex, List.findIdx?_cons]
    | succ j =>
      have hj : j < rest.length := by simpa using hi
      have hmem : rest[j] ∈ rest := List.getElem_mem hj
      have hne : (a == rest[j]) = false := by
        rw [beq_eq_false_iff_ne]
        intro he
        exact (List.nodup_cons.mp h).1 (he ▸ hmem)
      have htail := ih h.of_cons hj
      simp only [pyIndex] at htail
      simp [pyIndex, List.findIdx?_cons, List.getElem_cons_succ, hne,
        List.findIdx?_succ, htail]

/-! ### C9: Completion Oracle -/

/-- C9: `get_remaining_tasks` returns exactly the task names whose file
`outputDir/<name>.txt` does not exist, preserving the iteration
order (the result is a sublist of the keys) and never returning a name
outside the mapping. -/
theorem get_remaining_tasks_correct (fs : FS) (output_path : Str)
    (tasks : List (Str × List Str)) :
    (get_remaining_tasks fs output_path tasks).Sublist (tasks.map Prod.fst) ∧
    ∀ n, n ∈ get_remaining_tasks fs output_path tasks ↔
      n ∈ tasks.map Prod.fst ∧ fileExists fs (taskPath output_path n) = false := by
  refine ⟨List.filter_sublist _, fun n => ?_⟩
  simp [get_remaining_tasks, List.mem_filter]

/-! ### C10: configuration-line parsing -/

/-- C10: on a configuration line with more than one `-` separator, the
task name is the text before the first separator and the help text is
only the segment between the first and second separators (everything
after the second separator is dropped); on a line with a single
separator, the help text is the final field and retains its trailing
newline. -/
theorem config_line_parsing (a b c : Str) (ha : '-' ∉ a) (hb : '-' ∉ b) :
    parseName (a ++ '-' :: (b ++ '-' :: c)) = a ∧
    parseHelp (a ++ '-' :: (b ++ '-' :: c)) = some b ∧
    parseHelp (a ++ '-' :: (b ++ ['\n'])) = some (b ++ ['\n']) := by
  have hbn : '-' ∉ b ++ ['\n'] := by
    intro hmem
    rcases List.mem_append.mp hmem with h | h
    · exact hb h
    · simp at h
  refine ⟨?_, ?_, ?_⟩
  · rw [parseName, pySplit_append _ ha]; rfl
  · rw [parseHelp, pySplit_append _ ha, pySplit_append _ hb]; rfl
  · rw [parseHelp, pySplit_append _ ha, pySplit_of_not_mem hbn]; rfl

/-- Witness for C10 at a concrete configuration line. -/
theorem config_line_parsing_witness :
    parseName (str "pslist" ++ '-' :: (str "Process list" ++ '-' :: str "extra")) =
      str "pslist" ∧
    parseHelp (str "pslist" ++ '-' :: (str "Process list" ++ '-' :: str "extra")) =
      some (str "Process list") ∧
    parseHelp (str "pslist" ++ '-' :: (str "Process list" ++ ['\n'])) =
      some (str "Process list" ++ ['\n']) :=
  config_line_parsing (str "pslist") (str "Process list") (str "extra")
    (by decide) (by decide)

/-! ### C4: per-task persistence -/

/-- C4: the file `outputDir/<name>.txt` of a dispatched task is written exactly
when the decoded standard output is non-empty and neither a timeout nor an
execution error occurred; on empty output, timeout or execution error the
filesystem is untouched and the outcome is not Success; every branch
returns normally, so a task failure never aborts the run. -/
theorem run_command_persistence (pr : ProcResult) (task_name output_path : Str) (fs : FS) :
    (∀ s, pr = ProcResult.ok s → decodeUtf8Ignore s ≠ [] →
      (run_command pr task_name output_path fs).fs =
        writeFS fs (taskPath output_path task_name) (decodeUtf8Ignore s) ∧
      (run_command pr task_name output_path fs).outcome = Outcome.success) ∧
    ((∀ s, pr = ProcResult.ok s → decodeUtf8Ignore s = []) →
      (run_command pr task_name output_path fs).fs = fs ∧
      (run_command pr task_name output_path fs).outcome ≠ Outcome.success) := by
  cases pr with
  | ok s =>
    by_cases h : decodeUtf8Ignore s = []
    · refine ⟨fun s' hs' hne => ?_, fun _ => ?_⟩
      · cases hs'; exact absurd h hne
      · simp [run_command, h]
    · refine ⟨fun s' hs' _ => ?_, fun hall => absurd (hall s rfl) h⟩
      cases hs'; simp [run_command, h]
  | timedOut =>
    refine ⟨?_, fun _ => ?_⟩
    · intro s hs
      exact ProcResult.noConfusion hs
    · simp [run_command]
  | failed =>
    refine ⟨?_, fun _ => ?_⟩
    · intro s hs
      exact ProcResult.noConfusion hs
    · simp [run_command]

/-- Witness for C4: a successful task persists its file; a timed-out task
persists nothing. -/
theorem run_command_persistence_witness :
    (run_command (ProcResult.ok [0x41]) (str "pslist") (str "output") emptyFS).outcome =
      Outcome.success ∧
    (run_command ProcResult.timedOut (str "netscan") (str "output") emptyFS).fs = emptyFS := by
  refine ⟨?_, ?_⟩
  · exact ((run_command_persistence (ProcResult.ok [0x41]) (str "pslist") (str "output")
      emptyFS).1 [0x41] rfl (by decide)).2
  · exact ((run_command_persistence ProcResult.timedOut (str "netscan") (str "output")
      emptyFS).2 (fun s hs => nomatch hs)).1

/-! ### C6: encoding fallback -/

/-- C6 counterexample: the byte sequence `[0xff]` is not valid UTF-8, the
process exits normally, decoding with the ignore handler drops every byte,
and the outcome is EmptyOutput — not the Success outcome the claim
requires for every invalid-UTF-8 output. -/
theorem encoding_fallback_counterexample :
    validUtf8 [0xff] = false ∧
    (run_command (ProcResult.ok [0xff]) (str "pslist") (str "output") emptyFS).outcome =
      Outcome.emptyOutput ∧
    (run_command (ProcResult.ok [0xff]) (str "pslist") (str "output") emptyFS).outcome ≠
      Outcome.success := by decide

/-- C6 amended: a normally exiting task is classified Success or
EmptyOutput — never ExecutionError or Timeout, whatever the output bytes —
and it is Success exactly when the best-effort decoded text is non-empty
(all-invalid bytes decode to the empty text and yield EmptyOutput). -/
theorem encoding_never_fails_task (s : List Nat) (task_name output_path : Str) (fs : FS) :
    ((run_command (ProcResult.ok s) task_name output_path fs).outcome = Outcome.success ∨
     (run_command (ProcResult.ok s) task_name output_path fs).outcome = Outcome.emptyOutput) ∧
    ((run_command (ProcResult.ok s) task_name output_path fs).outcome = Outcome.success ↔
      decodeUtf8Ignore s ≠ []) := by
  by_cases h : decodeUtf8Ignore s = [] <;> simp [run_command, h]

/-! ### C7: progress notifications -/

/-- C7: dispatching produces exactly one progress notification per
submitted task, so the aggregator count equals the number of tasks
submitted; the label of a successful task is the bare task name while every
failure outcome carries a non-empty parenthetical marker. -/
theorem progress_notifications (behavior : Str → ProcResult) (output_path : Str)
    (names : List Str) (fs : FS) :
    (dispatch behavior output_path names fs).2.length = names.length ∧
    ∀ task_name (g : FS),
      ((run_command (behavior task_name) task_name output_path g).outcome = Outcome.success →
        (run_command (behavior task_name) task_name output_path g).label = task_name) ∧
      ((run_command (behavior task_name) task_name output_path g).outcome ≠ Outcome.success →
        ∃ m, m ≠ [] ∧ (run_command (behavior task_name) task_name output_path g).label =
          task_name ++ str " (" ++ m ++ str ")") := by
  constructor
  · induction names generalizing fs with
    | nil => rfl
    | cons n rest ih => simp [dispatch, ih]
  · intro task_name g
    have hmk : ∀ suffix full : Str, str " (" ++ suffix ++ str ")" = full →
        task_name ++ full = task_name ++ str " (" ++ suffix ++ str ")" := by
      intro suffix full h
      rw [← h]
      simp [List.append_assoc]
    cases hb : behavior task_name with
    | ok s =>
      by_cases h : decodeUtf8Ignore s = []
      · refine ⟨fun hs => ?_, fun _ => ⟨str "无输出", by decide, ?_⟩⟩
        · simp [run_command, h] at hs
        · have hl : (run_command (ProcResult.ok s) task_name output_path g).label =
              task_name ++ str " (无输出)" := by simp [run_command, h]
          rw [hl]
          exact hmk _ _ (by decide)
      · refine ⟨fun _ => ?_, fun hns => ?_⟩
        · simp [run_command, h]
        · exact absurd (by simp [run_command, h]) hns
    | timedOut =>
      refine ⟨fun hs => by simp [run_command] at hs,
        fun _ => ⟨str "超时", by decide, ?_⟩⟩
      have hl : (run_command ProcResult.timedOut task_name output_path g).label =
          task_name ++ str " (超时)" := rfl
      rw [hl]
      exact hmk _ _ (by decide)
    | failed =>
      refine ⟨fun hs => by simp [run_command] at hs,
        fun _ => ⟨str "错误", by decide, ?_⟩⟩
      have hl : (run_command ProcResult.failed task_name output_path g).label =
          task_name ++ str " (错误)" := rfl
      rw [hl]
      exact hmk _ _ (by decide)

/-- Witness for C7: two timed-out tasks yield two notifications, and a
label of a timed-out task carries a parenthetical marker. -/
theorem progress_notifications_witness :
    (dispatch (fun _ => ProcResult.timedOut) (str "output")
      [str "pslist", str "netscan"] emptyFS).2.length = 2 ∧
    ∃ m, m ≠ [] ∧
      (run_command ProcResult.timedOut (str "pslist") (str "output") emptyFS).label =
        str "pslist" ++ str " (" ++ m ++ str ")" := by
  refine ⟨?_, ?_⟩
  · exact (progress_notifications (fun _ => ProcResult.timedOut) (str "output")
      [str "pslist", str "netscan"] emptyFS).1
  · exact ((progress_notifications (fun _ => ProcResult.timedOut) (str "output")
      [str "pslist", str "netscan"] emptyFS).2 (str "pslist") emptyFS).2 (by decide)

/-! ### Dict lemmas for the task catalog -/

lemma dictInsert_ne_nil (d : List (Str × List Str)) (k : Str) (v : List Str) :
    dictInsert d k v ≠ [] := by
  unfold dictInsert
  cases d with
  | nil => simp
  | cons p rest =>
    by_cases h : (p :: rest).any (fun q => q.1 == k) = true <;> simp [h]

lemma dictInsertAll_ne_nil (l : List (Str × List Str)) (d : List (Str × List Str))
    (h : d ≠ [] ∨ l ≠ []) : dictInsertAll d l ≠ [] := by
  induction l generalizing d with
  | nil =>
    rcases h with h | h
    · exact h
    · exact absurd rfl h
  | cons kv rest ih =>
    obtain ⟨k, v⟩ := kv
    exact ih (dictInsert d k v) (Or.inl (dictInsert_ne_nil d k v))

lemma mem_dictInsert (p : Str × List Str) (d : List (Str × List Str)) (k : Str)
    (v : List Str) (h : p ∈ dictInsert d k v) : p ∈ d ∨ p = (k, v) := by
  unfold dictInsert at h
  by_cases hany : d.any (fun q => q.1 == k) = true
  · rw [if_pos hany, List.mem_map] at h
    rcases h with ⟨q, hq, he⟩
    by_cases hqk : (q.1 == k) = true
    · rw [if_pos hqk] at he
      exact Or.inr he.symm
    · rw [if_neg hqk] at he
      exact Or.inl (he ▸ hq)
  · rw [if_neg hany, List.mem_append] at h
    rcases h with h | h
    · exact Or.inl h
    · simp at h
      exact Or.inr (by simp [h])

lemma mem_dictInsertAll (p : Str × List Str) (l : List (Str × List Str)) :
    ∀ d, p ∈ dictInsertAll d l → p ∈ d ∨ p ∈ l := by
  induction l with
  | nil => exact fun d h => Or.inl h
  | cons kv rest ih =>
    obtain ⟨k, v⟩ := kv
    intro d h
    rcases ih (dictInsert d k v) h with h' | h'
    · rcases mem_dictInsert p d k v h' with h'' | h''
      · exact Or.inl h''
      · exact Or.inr (by simp [h''])
    · exact Or.inr (List.mem_cons_of_mem _ h')

lemma buildTasks_ne_nil (profile : Option Str) (memorydump_path : Str)
    (tasklist : List Str) : buildTasks profile memorydump_path tasklist ≠ [] := by
  unfold buildTasks
  exact dictInsertAll_ne_nil _ _ (Or.inr (by simp [task_filescanlist]))

lemma buildTasks_profile_arg (profile : Option Str) (memorydump_path : Str)
    (tasklist : List Str) (kv : Str × List Str)
    (h : kv ∈ buildTasks profile memorydump_path tasklist) :
    kv.2.head? = some (str "--profile=" ++ profileStr profile) := by
  unfold buildTasks at h
  rcases mem_dictInsertAll _ _ _ h with h' | h'
  · rcases mem_dictInsertAll _ _ _ h' with h'' | h''
    · simp at h''
    · rw [List.mem_map] at h''
      rcases h'' with ⟨t, _, he⟩
      rw [← he]
      rfl
  · rw [List.mem_map] at h'
    rcases h' with ⟨t, _, he⟩
    rw [← he]
    rfl

/-! ### C1: idempotence of the pipeline -/

/-- The output directory after a first run in which the `pslist` task
succeeded and persisted `output/pslist.txt`. -/
def fsC1 : FS := writeFS emptyFS (taskPath (str "output") (str "pslist")) (str "PID 1 init")

/-- A second run over the same memory dump, profile and configuration,
starting from the filesystem `fsC1` left by the first run. -/
def envC1 : Env :=
  { memorydump_path := str "mem.img"
    profile := some (str "Win7SP1x64")
    dumpfiles := false
    dumpfiles_location := none
    mkdir_raises := false
    imageinfo := ImageInfoResult.raised
    config := some [str "pslist-Process list\n"]
    behavior := fun _ => ProcResult.timedOut
    fs := fsC1 }

/-- C1: the pipeline is not idempotent. On a second run whose output
directory already holds `output/pslist.txt`, `analyze_memory_dump` still
submits the `pslist` task to the pool (it dispatches every task in the
dict and never consults `get_remaining_tasks`), although the Completion
Oracle correctly excludes `pslist` from the remaining set. -/
theorem pipeline_not_idempotent :
    fileExists fsC1 (taskPath (str "output") (str "pslist")) = true ∧
    str "pslist" ∈ (tasksOf (analyze_memory_dump envC1)).map Prod.fst ∧
    str "pslist" ∉
      get_remaining_tasks fsC1 (str "output") (tasksOf (analyze_memory_dump envC1)) := by
  decide

/-! ### C2: profile auto-detection failure -/

/-- A run with no profile supplied whose `imageinfo` output contains no
line with the marker phrase `Suggested Profile(s)`. -/
def envC2 : Env :=
  { memorydump_path := str "mem.img"
    profile := none
    dumpfiles := false
    dumpfiles_location := none
    mkdir_raises := false
    imageinfo := ImageInfoResult.ok (str "Volatility Foundation\nNo profile line here\n")
    config := some [str "pslist-Process list\n"]
    behavior := fun _ => ProcResult.timedOut
    fs := emptyFS }

/-- C2 counterexample: when auto-detection finds no marker line the run
does not abort — all six tasks are constructed and dispatched, with the
literal argument `--profile=None`. -/
theorem profile_detection_counterexample :
    isAbortProfile (analyze_memory_dump envC2) = false ∧
    (tasksOf (analyze_memory_dump envC2)).length = 6 ∧
    ((tasksOf (analyze_memory_dump envC2)).map Prod.snd).head? =
      some [str "--profile=None", str "-f", str "mem.img", str "pslist"] := by
  decide

/-- C2 amended: the run aborts only when the detection invocation itself
raises; when the marker phrase is merely absent from the tool output the
run continues, constructing a non-empty task dict whose every command
carries the literal token `--profile=None`. -/
theorem profile_detection_amended (env : Env)
    (hmk : env.mkdir_raises = false)
    (hprof : env.profile = none) :
    (env.imageinfo = ImageInfoResult.raised →
      analyze_memory_dump env = Except.ok (RunResult.abortProfile env.fs)) ∧
    (∀ out lines helps,
      env.imageinfo = ImageInfoResult.ok out →
      findMarkerLine out = none →
      env.config = some lines →
      parseHelps lines = some helps →
      ∃ notes fs2 md,
        analyze_memory_dump env = Except.ok (RunResult.completed
          (buildTasks none env.memorydump_path (lines.map parseName)) notes fs2 md) ∧
        buildTasks none env.memorydump_path (lines.map parseName) ≠ [] ∧
        ∀ kv ∈ buildTasks none env.memorydump_path (lines.map parseName),
          kv.2.head? = some (str "--profile=None")) := by
  constructor
  · intro himg
    simp [analyze_memory_dump, hmk, hprof, himg, truthy, detectProfile]
  · intro out lines helps himg hmark hcfg hhelp
    have h1 := buildTasks_ne_nil none env.memorydump_path (lines.map parseName)
    have h2 := fun kv hkv =>
      buildTasks_profile_arg none env.memorydump_path (lines.map parseName) kv hkv
    simp only [analyze_memory_dump, hmk, hprof, himg, hmark, hcfg, hhelp, truthy,
      detectProfile, Bool.false_eq_true, if_false, Bool.and_false, Bool.false_and,
      List.isEmpty_nil]
    exact ⟨_, _, _, rfl, h1, h2⟩

/-- Witness for C2 amended, at the concrete environment `envC2`. -/
theorem profile_detection_amended_witness :
    ∃ notes fs2 md,
      analyze_memory_dump envC2 = Except.ok (RunResult.completed
        (buildTasks none (str "mem.img") ([str "pslist-Process list\n"].map parseName))
        notes fs2 md) ∧
      buildTasks none (str "mem.img") ([str "pslist-Process list\n"].map parseName) ≠ [] ∧
      ∀ kv ∈ buildTasks none (str "mem.img") ([str "pslist-Process list\n"].map parseName),
        kv.2.head? = some (str "--profile=None") :=
  (profile_detection_amended envC2 rfl rfl).2
    (str "Volatility Foundation\nNo profile line here\n")
    [str "pslist-Process list\n"]
    [str "Process list\n"]
    rfl (by decide) rfl (by decide)

/-! ### C3: configuration failure and exit status -/

/-- A run whose configuration file has a line without the `-` separator. -/
def envC3 : Env :=
  { memorydump_path := str "mem.img"
    profile := some (str "Win7SP1x64")
    dumpfiles := false
    dumpfiles_location := none
    mkdir_raises := false
    imageinfo := ImageInfoResult.raised
    config := some [str "badline no separator"]
    behavior := fun _ => ProcResult.timedOut
    fs := emptyFS }

/-- C3 counterexample: a malformed configuration line does abort the run
before any task is dispatched, but the process then exits with status 0 —
not the non-zero status the claim requires (the exception is caught inside
`analyze_memory_dump`, which returns normally, so `main` never reaches
`sys.exit(1)`). -/
theorem config_failure_counterexample :
    isAbortConfig (analyze_memory_dump envC3) = true ∧
    mainExitCode envC3 = 0 := by decide

/-- C3 amended: an unreadable or malformed configuration aborts the run
before any task is dispatched, with the filesystem untouched — but the
process exits with status 0; the exit status is 1 exactly when the output
directory cannot be created (the only uncaught exception), so per-task
failures never affect it. -/
theorem config_failure_amended (env : Env)
    (hmk : env.mkdir_raises = false)
    (hdump : (env.dumpfiles && truthy env.profile && truthy env.dumpfiles_location) = false)
    (hprof : truthy env.profile = true)
    (hbad : env.config = none ∨ ∃ lines, env.config = some lines ∧ parseHelps lines = none) :
    analyze_memory_dump env = Except.ok (RunResult.abortConfig env.fs) ∧
    mainExitCode env = 0 ∧
    ∀ env2 : Env, mainExitCode env2 = if env2.mkdir_raises then 1 else 0 := by
  have habort : analyze_memory_dump env = Except.ok (RunResult.abortConfig env.fs) := by
    rcases hbad with hnone | ⟨lines, hcfg, hbadlines⟩
    · simp [analyze_memory_dump, hmk, hdump, hprof, hnone]
      intro hd
      rw [hprof] at hdump
      simp [hd] at hdump
      exact hdump
    · simp [analyze_memory_dump, hmk, hdump, hprof, hcfg, hbadlines]
      intro hd
      rw [hprof] at hdump
      simp [hd] at hdump
      exact hdump
  refine ⟨habort, by simp [mainExitCode, habort], ?_⟩
  intro env2
  by_cases h2 : env2.mkdir_raises = true
  · simp [mainExitCode, analyze_memory_dump, h2]
  · rw [Bool.not_eq_true] at h2
    have : ∃ r, analyze_memory_dump env2 = Except.ok r := by
      unfold analyze_memory_dump
      rw [h2]
      simp only [Bool.false_eq_true, if_false]
      split
      · exact ⟨_, rfl⟩
      · split
        · exact ⟨_, rfl⟩
        · split
          · exact ⟨_, rfl⟩
          · split
            · exact ⟨_, rfl⟩
            · exact ⟨_, rfl⟩
    rcases this with ⟨r, hr⟩
    simp [mainExitCode, hr, h2]

/-- Witness for C3 amended, at the concrete environment `envC3`. -/
theorem config_failure_amended_witness :
    analyze_memory_dump envC3 = Except.ok (RunResult.abortConfig envC3.fs) ∧
    mainExitCode envC3 = 0 ∧
    ∀ env2 : Env, mainExitCode env2 = if env2.mkdir_raises then 1 else 0 :=
  config_failure_amended envC3 rfl rfl rfl
    (Or.inr ⟨[str "badline no separator"], rfl, by decide⟩)

/-! ### C8: report-local failure containment -/

/-- An output directory in which `output/pslist.txt` exists but its read
raises (for example, the file holds bytes `read_text` cannot decode). -/
def fsC8 : FS := fun q =>
  if q = taskPath (str "output") (str "pslist") then some FileEntry.unreadable else none

/-- C8 counterexample: for a task whose output-file read raises during
report assembly, the section is not omitted — its heading/subheading chunk
was appended before the read and survives in the assembled report; only
the body is missing. -/
theorem report_containment_counterexample :
    fileExists fsC8 (taskPath (str "output") (str "pslist")) = true ∧
    readText fsC8 (taskPath (str "output") (str "pslist")) = none ∧
    sectionChunks fsC8 (str "output") (str "pslist") [str "pslist"] [str "Process list"]
      task_filescanlist task_filescanlist_help = [str "# pslist\n## Process list"] ∧
    str "# pslist\n## Process list" ∈
      (generate_markdown fsC8 (str "output")
        (buildTasks none (str "mem.img") [str "pslist"]) [str "pslist"] [str "Process list"]
        task_filescanlist task_filescanlist_help).2 := by decide

/-- C8 amended: report assembly never aborts — the assembled report is the
concatenation of the own chunks of every task, so the failure of one task cannot
suppress the section of another task, and the summary file is always written.
A failed help lookup contributes no chunks; a failed file read contributes
the already-appended heading but no body. -/
theorem report_containment_amended (fs : FS) (output_path : Str)
    (tasks : List (Str × List Str)) (tl th fl fh : List Str) :
    (generate_markdown fs output_path tasks tl th fl fh).2 =
      ((tasks.map Prod.fst).map
        (fun n => sectionChunks fs output_path n tl th fl fh)).flatten ∧
    fileExists (generate_markdown fs output_path tasks tl th fl fh).1
      (pathJoin output_path (str "summary.md")) = true ∧
    ∀ n help_text, helpLookup n tl th fl fh = some help_text →
      fileExists fs (taskPath output_path n) = true →
      readText fs (taskPath output_path n) = none →
      sectionChunks fs output_path n tl th fl fh =
        [str "# " ++ n ++ str "\n## " ++ help_text] := by
  refine ⟨?_, ?_, ?_⟩
  · simp [generate_markdown, markdownLoop_eq]
  · simp [generate_markdown, fileExists, writeFS]
  · intro n help_text hlook hex hrd
    simp [sectionChunks, hlook, hex, hrd]

/-! ### C5: report completeness and order -/

/-- Modelled from the spec: one report section per task — a heading with
the task name, a subheading with its help text, and a body embedding the
full text of the persisted file in a fenced block when the file exists, else
the no-data placeholder. Stated separately from the code-derived
`sectionChunks` so the assembler can be compared against the
description in the specification. -/
def sectionSpec (fs : FS) (output_path task_name help_text : Str) : List Str :=
  [str "# " ++ task_name ++ str "\n## " ++ help_text,
   if fileExists fs (taskPath output_path task_name) then
     str "```\n" ++ (readText fs (taskPath output_path task_name)).getD [] ++ str "\n```\n"
   else
     str "*暂无数据*\n"]

lemma containsSub_filterTaskName (term : Str) :
    containsSub (str "filescan") (filterTaskName term) = true := by
  rw [containsSub, List.any_eq_true]
  refine ⟨filterTaskName term, (List.mem_tails _ _).mpr (List.suffix_refl _), ?_⟩
  rw [ List.isPrefixOf_iff_prefix]
  refine ⟨'(' :: (term ++ str ")"), ?_⟩
  show str "filescan" ++ ('(' :: (term ++ str ")")) = filterTaskName term
  rw [filterTaskName]
  have h : str "filescan(" = str "filescan" ++ ['('] := by decide
  rw [h]
  simp [List.append_assoc]

lemma sectionChunks_of_lookup (fs : FS) (output_path task_name help_text : Str)
    (tl th fl fh : List Str)
    (hlook : helpLookup task_name tl th fl fh = some help_text)
    (hread : ∀ q, fs q ≠ some FileEntry.unreadable) :
    sectionChunks fs output_path task_name tl th fl fh =
      sectionSpec fs output_path task_name help_text := by
  by_cases hex : fileExists fs (taskPath output_path task_name) = true
  · obtain ⟨c, hc⟩ : ∃ c, readText fs (taskPath output_path task_name) = some c := by
      cases hq : fs (taskPath output_path task_name) with
      | none => rw [fileExists, hq] at hex; simp at hex
      | some e =>
        cases e with
        | readable c => exact ⟨c, by simp [readText, hq]⟩
        | unreadable => exact absurd hq (hread _)
    simp [sectionChunks, sectionSpec, hlook, hex, hc]
  · simp [sectionChunks, sectionSpec, hlook, hex]

lemma helpLookup_catalog (tl th fl fh : List Str) (hnodup : tl.Nodup) (i : Nat)
    (hi : i < tl.length) (hfs : containsSub (str "filescan") tl[i] = false) :
    helpLookup tl[i] tl th fl fh = th.get? i := by
  simp only [helpLookup, hfs, Bool.false_eq_true, if_false,
    pyIndex_getElem_of_nodup hnodup hi]

lemma sectionChunks_filter_term (fs : FS) (output_path : Str) (tl th : List Str)
    (hread : ∀ q, fs q ≠ some FileEntry.unreadable) (term help_text : Str)
    (hf : filterHelp (filterTaskName term) task_filescanlist task_filescanlist_help =
      some help_text) :
    sectionChunks fs output_path (filterTaskName term) tl th
      task_filescanlist task_filescanlist_help =
      sectionSpec fs output_path (filterTaskName term) help_text := by
  apply sectionChunks_of_lookup
  · simp [helpLookup, containsSub_filterTaskName term, hf]
  · exact hread

lemma dictInsertAll_fresh (new : List (Str × List Str)) :
    ∀ d, (new.map Prod.fst).Nodup →
    (∀ k ∈ new.map Prod.fst, k ∉ d.map Prod.fst) →
    dictInsertAll d new = d ++ new := by
  induction new with
  | nil =>
    intro d _ _
    simp [dictInsertAll]
  | cons kv rest ih =>
    obtain ⟨k, v⟩ := kv
    intro d hnodup hfresh
    have hk : k ∉ d.map Prod.fst := hfresh k (by simp)
    have hany : d.any (fun p => p.1 == k) = false := by
      rw [List.any_eq_false]
      intro p hp
      rw [Bool.not_eq_true, beq_eq_false_iff_ne]
      intro he
      exact hk (he ▸ List.mem_map_of_mem Prod.fst hp)
    have hstep : dictInsert d k v = d ++ [(k, v)] := by
      simp only [dictInsert, hany, Bool.false_eq_true, if_false]
    have hknr : k ∉ List.map Prod.fst rest := (List.nodup_cons.mp (by simpa using hnodup)).1
    rw [dictInsertAll, hstep, ih (d ++ [(k, v)]) (by simpa using hnodup.of_cons) ?_]
    · simp
    · intro k' hk'
      intro hmem
      rw [List.map_append, List.mem_append] at hmem
      rcases hmem with hm | hm
      · exact hfresh k' (by simp [hk']) hm
      · simp at hm
        exact hknr (hm ▸ hk')

lemma buildTasks_keys (profile : Option Str) (memorydump_path : Str) (tl : List Str)
    (hnodup : tl.Nodup)
    (hnofs : ∀ t ∈ tl, containsSub (str "filescan") t = false) :
    (buildTasks profile memorydump_path tl).map Prod.fst =
      tl ++ task_filescanlist.map filterTaskName := by
  have hcat : (tl.map (fun task => (task, catalogArgs profile memorydump_path task))).map
      Prod.fst = tl := by
    rw [List.map_map]
    exact List.map_id tl
  have hfil : (task_filescanlist.map (fun term =>
      (filterTaskName term, filterArgs profile memorydump_path term))).map Prod.fst =
      task_filescanlist.map filterTaskName := by
    rw [List.map_map]
    rfl
  unfold buildTasks
  have h1 : dictInsertAll []
      (tl.map (fun task => (task, catalogArgs profile memorydump_path task))) =
      tl.map (fun task => (task, catalogArgs profile memorydump_path task)) := by
    rw [dictInsertAll_fresh _ [] (by rw [hcat]; exact hnodup) (by simp)]
    simp
  rw [h1, dictInsertAll_fresh _ _ ?_ ?_]
  · rw [List.map_append, hcat, hfil]
  · rw [hfil]
    decide
  · intro k hk
    rw [hfil, List.mem_map] at hk
    rcases hk with ⟨term, _, hterm⟩
    rw [hcat]
    intro hmem
    have hc := containsSub_filterTaskName term
    rw [hterm, hnofs k hmem] at hc
    exact Bool.noConfusion hc

/-- The task catalog of the C5 counterexample: the single configured
operation `filescan` — a legitimate tool operation name — plus the five
built-in filter tasks. -/
def tasksC5 : List (Str × List Str) :=
  buildTasks (some (str "Win7SP1x64")) (str "mem.img") [str "filescan"]

/-- C5 counterexample: with catalog `["filescan"]` the dict holds six
tasks but the assembled report holds only five heading sections — the
catalog task `filescan` matches the filter-branch of the help lookup, the
parse of its name raises, and its section is omitted, so the report does
not contain exactly one section per task. -/
theorem report_completeness_counterexample :
    (tasksC5.map Prod.fst).length = 6 ∧
    ((generate_markdown emptyFS (str "output") tasksC5 [str "filescan"] [str "Scan files"]
        task_filescanlist task_filescanlist_help).2.countP
      (fun chunk => chunk.take 2 == str "# ")) = 5 ∧
    sectionChunks emptyFS (str "output") (str "filescan") [str "filescan"] [str "Scan files"]
      task_filescanlist task_filescanlist_help = [] := by decide

/-- C5 amended: provided no catalog task name contains the substring
`filescan`, the catalog names are distinct, and every existing output file
is readable, the assembled report is exactly one section per task, catalog
tasks in configuration order followed by filter tasks in filter-list
order, each section embedding the full text of the persisted file in a fenced
block when the file exists and the no-data placeholder otherwise. -/
theorem report_completeness_amended (fs : FS) (output_path memorydump_path : Str)
    (profile : Option Str) (tasklist tasklist_help : List Str)
    (hnodup : tasklist.Nodup)
    (hnofs : ∀ t ∈ tasklist, containsSub (str "filescan") t = false)
    (hlen : tasklist_help.length = tasklist.length)
    (hread : ∀ q, fs q ≠ some FileEntry.unreadable) :
    (generate_markdown fs output_path (buildTasks profile memorydump_path tasklist)
        tasklist tasklist_help task_filescanlist task_filescanlist_help).2 =
      ((tasklist.zip tasklist_help).map
        (fun q => sectionSpec fs output_path q.1 q.2)).flatten ++
      ((task_filescanlist.zip task_filescanlist_help).map
        (fun q => sectionSpec fs output_path (filterTaskName q.1) q.2)).flatten := by
  have hrep : (generate_markdown fs output_path (buildTasks profile memorydump_path tasklist)
        tasklist tasklist_help task_filescanlist task_filescanlist_help).2 =
      (((buildTasks profile memorydump_path tasklist).map Prod.fst).map
        (fun n => sectionChunks fs output_path n
          tasklist tasklist_help task_filescanlist task_filescanlist_help)).flatten := by
    simp [generate_markdown, markdownLoop_eq]
  rw [hrep, buildTasks_keys profile memorydump_path tasklist hnodup hnofs,
    List.map_append, List.flatten_append]
  congr 1
  · congr 1
    apply List.ext_getElem
    · simp [hlen]
    · intro i h1 h2
      have hi : i < tasklist.length := by simpa using h1
      have hith : i < tasklist_help.length := by rw [hlen]; exact hi
      rw [List.getElem_map, List.getElem_map, List.getElem_zip]
      have hlook : helpLookup tasklist[i] tasklist tasklist_help
          task_filescanlist task_filescanlist_help = some tasklist_help[i] := by
        rw [helpLookup_catalog tasklist tasklist_help task_filescanlist
          task_filescanlist_help hnodup i hi (hnofs _ (List.getElem_mem hi))]
        rw [List.get?_eq_getElem?, List.getElem?_eq_getElem hith]
      exact sectionChunks_of_lookup fs output_path _ _ _ _ _ _ hlook hread
  · congr 1
    show List.map _ (List.map filterTaskName
        [str "Desktop", str "Downloads", str ".zip", str "flag", str "evtx"]) = _
    simp only [List.map_cons, List.map_nil]
    rw [sectionChunks_filter_term fs output_path _ _ hread (str "Desktop") (str "桌面")
        (by decide),
      sectionChunks_filter_term fs output_path _ _ hread (str "Downloads") (str "下载")
        (by decide),
      sectionChunks_filter_term fs output_path _ _ hread (str ".zip") (str "压缩包")
        (by decide),
      sectionChunks_filter_term fs output_path _ _ hread (str "flag") (str "flag")
        (by decide),
      sectionChunks_filter_term fs output_path _ _ hread (str "evtx") (str "日志")
        (by decide)]
    rfl

/-- Witness for C5 amended, at a one-line catalog over the empty output
directory. -/
theorem report_completeness_amended_witness :
    (generate_markdown emptyFS (str "output")
        (buildTasks none (str "mem.img") [str "pslist"])
        [str "pslist"] [str "Process list"]
        task_filescanlist task_filescanlist_help).2 =
      (([str "pslist"].zip [str "Process list"]).map
        (fun q => sectionSpec emptyFS (str "output") q.1 q.2)).flatten ++
      ((task_filescanlist.zip task_filescanlist_help).map
        (fun q => sectionSpec emptyFS (str "output") (filterTaskName q.1) q.2)).flatten :=
  report_completeness_amended emptyFS (str "output") (str "mem.img") none
    [str "pslist"] [str "Process list"] (by decide) (by decide) (by decide)
    (fun q => by simp [emptyFS])

/-- Witness for C8 amended: the heading-only section at the concrete
unreadable file of `fsC8`. -/
theorem report_containment_amended_witness :
    sectionChunks fsC8 (str "output") (str "netscan") [str "netscan"] [str "Network scan"]
      task_filescanlist task_filescanlist_help ≠ [] ∨
    sectionChunks fsC8 (str "output") (str "pslist") [str "pslist"] [str "Process list"]
      task_filescanlist task_filescanlist_help =
      [str "# " ++ str "pslist" ++ str "\n## " ++ str "Process list"] :=
  Or.inr ((report_containment_amended fsC8 (str "output") [] [str "pslist"]
    [str "Process list"] task_filescanlist task_filescanlist_help).2.2
    (str "pslist") (str "Process list") (by decide) (by decide) (by decide))

end VolPro
